import Mathlib

/-!
Verification development for the job_matcher repository.

The Python sources are shallowly embedded:
* `job_scraper.py`   : `should_include_company`, the sample-job fallback of
  `scrape_linkedin_jobs`, `get_sample_jobs`, `get_job_description`;
* `matching_engine.py` : `wait_with_backoff`, `analyze_job_match` (the
  score-response parser and the rate-limit retry recursion, with the
  Anthropic API abstracted as an oracle of call outcomes), `analyze_matches`;
* `main.py` : `JobProcessor.handle_analyzed_job` and its top-5 buffer.

Python dict rows become structures; Python's stable `sorted`/`list.sort`
becomes a stable insertion sort; machine randomness (jitter) becomes an
explicit rational parameter; network and LLM I/O becomes oracle parameters
describing the outcome of each external call.
-/

namespace JobMatcher

/-! ## String helpers mirroring Python primitives -/

/-- Python `str.strip()` on a list of characters: drop whitespace from both
ends. -/
def pyStrip (s : List Char) : List Char :=
  ((s.dropWhile Char.isWhitespace).reverse.dropWhile Char.isWhitespace).reverse

/-- Python `int(...)` on a non-empty string of decimal digits: the value of
the digit concatenation. -/
def digitsToNat (ds : List Char) : Nat :=
  ds.foldl (fun n c => n * 10 + (c.toNat - ('0').toNat)) 0

/-- Python `s.split(sep, 1)` for a one-character separator: the part before
the first occurrence of `sep` and the part after it. -/
def splitFirst (sep : Char) : List Char → List Char × List Char
  | [] => ([], [])
  | c :: cs =>
    if c = sep then ([], cs)
    else
      let p := splitFirst sep cs
      (c :: p.1, p.2)

/-- Python `a in b` for strings, head case: does `hay` start with `needle`? -/
def leadsWith : List Char → List Char → Bool
  | [], _ => true
  | _ :: _, [] => false
  | a :: as, b :: bs => a == b && leadsWith as bs

/-- Python `needle in hay` for strings: substring containment. -/
def strIn (needle : List Char) : List Char → Bool
  | [] => needle.isEmpty
  | b :: bs => leadsWith needle (b :: bs) || strIn needle bs

/-- Python `str.lower()`: lowercase character by character. -/
def pyLower (s : List Char) : List Char :=
  s.map Char.toLower

/-! ## Data model -/

/-- A job posting as built by the Listing Fetcher (`job_data` dict in
`job_scraper.py`). -/
structure Posting where
  title : String
  company : String
  location : String
  description : String
  posted_date : String
  url : Option String
deriving DecidableEq

/-- A posting after scoring: the posting dict updated with `match_score` and
`match_reasoning` (`matching_engine.py`). -/
structure ScoredPosting extends Posting where
  match_score : Nat
  match_reasoning : String
deriving DecidableEq

/-! ## job_scraper.py : company filtering -/

/-- `should_include_company` from `job_scraper.py`: lowercase the company,
reject if any excluded entry is a substring, accept everything if no
included entries are given, otherwise accept exactly when some included
entry is a substring. -/
def should_include_company (company : String)
    (included_companies excluded_companies : List String) : Bool :=
  let c := pyLower company.data
  if excluded_companies.any (fun excluded => strIn excluded.data c) then
    false
  else if included_companies.isEmpty then
    true
  else
    included_companies.any (fun included => strIn included.data c)

/-! ## job_scraper.py : sample-job fallback -/

/-- The five sample titles of `get_sample_jobs`. -/
def job_titles (role : String) : List String :=
  ["Senior " ++ role, "Lead " ++ role, "Principal " ++ role,
   "Staff " ++ role, role ++ " Manager"]

/-- The five sample companies of `get_sample_jobs`. -/
def sample_companies : List String :=
  ["Tech Corp Inc", "Digital Solutions Ltd", "Innovation Systems",
   "Future Technologies", "Global Tech Partners"]

/-- The five sample descriptions of `get_sample_jobs`. -/
def sample_descriptions (role : String) : List String :=
  ["We are seeking an experienced " ++ role ++ " to join our team. The ideal candidate will have 5+ years of experience in product development, strong leadership skills, and a track record of successful product launches.",
   "Join our growing team as a " ++ role ++ ". You will be responsible for driving innovation, leading cross-functional teams, and delivering high-impact solutions.",
   "Exciting opportunity for a seasoned " ++ role ++ " to make a significant impact. You will lead strategic initiatives, mentor team members, and shape the future of our products.",
   "We're looking for a talented " ++ role ++ " to help scale our operations. The ideal candidate brings deep expertise, creative problem-solving skills, and a passion for excellence.",
   "Outstanding opportunity for a " ++ role ++ " to join our dynamic team. You will drive key projects, collaborate with stakeholders, and contribute to our company's growth."]

/-- `get_sample_jobs` from `job_scraper.py`. The randomized posted dates
(`datetime.now() - timedelta(hours=randint(1,24))`, formatted) are passed in
as the `dates` parameter. -/
def get_sample_jobs (role location : String) (dates : List String) : List Posting :=
  (List.range 5).map fun i =>
    { title := (job_titles role).getD i ""
      company := sample_companies.getD i ""
      location := location
      description := (sample_descriptions role).getD i ""
      posted_date := dates.getD i ""
      url := none }

/-- Output of `scrape_linkedin_jobs` with `stream_jobs=True` (the mode the
orchestrator uses), as seen by a consumer iterating the generator:
`accepted` are the postings yielded by the pagination loop before it ended
(so `filtered_count = accepted.length`), `crashed` says whether the loop
died with an exception, `samples` is `get_sample_jobs role location`. On a
crash the `except` handler (line 176) yields the samples after the
already-yielded postings and then falls through to the post-loop check
(lines 180-182), which yields the samples once more when `filtered_count`
is zero; on a normal end only that post-loop check runs. With
`stream_jobs=False` the function is still a generator (its body contains
`yield`), so its `return` statements never reach an iterating caller and
that mode yields nothing; it is not modelled here. -/
def scrape_stream_output (accepted : List Posting) (crashed : Bool)
    (samples : List Posting) : List Posting :=
  (if crashed then accepted ++ samples else accepted) ++
    (if accepted.isEmpty then samples else [])

/-! ## job_scraper.py : detail fetcher -/

/-- Abstraction of the fetched and parsed detail page in
`get_job_description`: `selectText s` is the text of
`soup.select_one(s)` when that element exists, `keywordText k` is the text
of the first `div`/`section` whose text contains keyword `k`, if any. -/
structure PageModel where
  selectText : String → Option String
  keywordText : String → Option String

/-- The ordered content selectors tried by `get_job_description`. -/
def description_selectors : List String :=
  ["div.description__text", "div.show-more-less-html__markup",
   "div.job-description", "div.description"]

/-- The keyword phrases of the fallback search in `get_job_description`. -/
def description_keywords : List String :=
  ["job description", "position description", "role description"]

/-- `get_job_description` from `job_scraper.py`. `page = none` models a
transport or parse failure (the request or BeautifulSoup raising), which the
function swallows; otherwise the selectors are tried in order, then the
keyword fallback, and the matched element's text is stripped. All remaining
paths return the fixed sentinel. -/
def get_job_description (page : Option PageModel) : String :=
  match page with
  | none => "Detailed description not available"
  | some p =>
    match description_selectors.findSome? p.selectText with
    | some t => String.mk (pyStrip t.data)
    | none =>
      match description_keywords.findSome? p.keywordText with
      | some t => String.mk (pyStrip t.data)
      | none => "Detailed description not available"

/-! ## matching_engine.py : backoff -/

/-- `base_delay` in `wait_with_backoff` (seconds). -/
def base_delay : Nat := 20

/-- `max_delay` in `wait_with_backoff` (seconds). -/
def max_delay : Nat := 120

/-- The pre-jitter delay of `wait_with_backoff`:
`min(base_delay * (2 ** retry_count), max_delay)`. -/
def backoff_delay (retry_count : Nat) : Nat :=
  min (base_delay * 2 ^ retry_count) max_delay

/-- The delay actually slept by `wait_with_backoff`: the pre-jitter delay
times the jitter factor drawn from `random.uniform(0.5, 1.5)`, passed here
as the rational `jitter`. -/
def wait_with_backoff (retry_count : Nat) (jitter : ℚ) : ℚ :=
  (backoff_delay retry_count : ℚ) * jitter

/-! ## matching_engine.py : response parsing -/

/-- The parsing block of `analyze_job_match` (lines 86-113 of
`matching_engine.py`), acting on the response text: require a `|`, split on
the first `|`, strip non-digits from the left part, require at least one
digit, read the digits as the score, require it within `[0, 100]`, strip the
right part, require it non-empty. `none` models the `ValueError` paths that
the surrounding `except` turns into the parse-error result. -/
def parse_score_response (response_text : List Char) : Option (Nat × List Char) :=
  if response_text.contains '|' = false then none
  else if ((splitFirst '|' response_text).1.filter Char.isDigit).isEmpty then none
  else if digitsToNat ((splitFirst '|' response_text).1.filter Char.isDigit) < 0 ∨
      100 < digitsToNat ((splitFirst '|' response_text).1.filter Char.isDigit) then none
  else if (pyStrip (splitFirst '|' response_text).2).isEmpty then none
  else some (digitsToNat ((splitFirst '|' response_text).1.filter Char.isDigit),
    pyStrip (splitFirst '|' response_text).2)

/-! ## matching_engine.py : analyze_job_match -/

/-- Outcome of one `client.messages.create` call, as consumed by
`analyze_job_match`: a response whose stripped text is `response_text`, an
`anthropic.RateLimitError`, or any other exception with message `msg`. -/
inductive ApiOutcome where
  | success (response_text : String)
  | rateLimit
  | exn (msg : String)
deriving DecidableEq

/-- `max_retries` in `analyze_job_match`. -/
def max_retries : Nat := 5

/-- The degraded result dicts `{**job, "match_score": 0,
"match_reasoning": reason}` built by the error handlers. -/
def degradedResult (job : Posting) (reason : String) : ScoredPosting :=
  { toPosting := job, match_score := 0, match_reasoning := reason }

/-- `analyze_job_match` from `matching_engine.py`. The API is the oracle:
`oracle n` is the outcome of the call made with `retry_count = n` (the
function increments `retry_count` before each retry, so attempt `n` runs at
`retry_count = n`). The second component records the successive arguments
passed to `wait_with_backoff`, in order. A successful call's stripped
response is parsed; a parse failure returns the fixed parse-error result; a
rate limit retries with `retry_count + 1` while `retry_count < max_retries`
and otherwise raises, which the outer handler turns into a degraded result
carrying the raised message; any other exception likewise degrades. -/
def analyze_job_match (oracle : Nat → ApiOutcome) (resume_text : String)
    (job : Posting) (retry_count : Nat) : ScoredPosting × List Nat :=
  match oracle retry_count with
  | .success response_text =>
    match parse_score_response response_text.data with
    | some scored =>
      ({ toPosting := job, match_score := scored.1,
         match_reasoning := String.mk scored.2 }, [])
    | none => (degradedResult job "Error parsing analysis results", [])
  | .rateLimit =>
    if h : retry_count < max_retries then
      let rest := analyze_job_match oracle resume_text job (retry_count + 1)
      (rest.1, (retry_count + 1) :: rest.2)
    else
      (degradedResult job
        ("Error during analysis: Rate limit exceeded after " ++
          toString max_retries ++ " retries"), [])
  | .exn msg => (degradedResult job ("Error during analysis: " ++ msg), [])
termination_by max_retries + 1 - retry_count
decreasing_by simp only [max_retries] at h ⊢; omega

/-! ## Stable descending sort by score

Python's `sorted(..., key=lambda x: x.get('match_score', 0), reverse=True)`
and the equivalent `list.sort` call: a stable sort, descending on
`match_score`, ties keeping their original order. Modelled as the stable
insertion sort that places each element before the first existing element
whose score is not larger. -/

/-- Insert `j` before the first element whose score is at most `j`'s, so an
earlier arrival precedes equal-scored later arrivals. -/
def insertByScoreDesc (j : ScoredPosting) : List ScoredPosting → List ScoredPosting
  | [] => [j]
  | x :: xs =>
    if x.match_score ≤ j.match_score then j :: x :: xs
    else x :: insertByScoreDesc j xs

/-- Stable descending sort on `match_score` (Python `sorted`/`list.sort`
with `reverse=True`). -/
def sortByScoreDesc (l : List ScoredPosting) : List ScoredPosting :=
  l.foldr insertByScoreDesc []

/-! ## matching_engine.py : analyze_matches -/

/-- `analyze_matches` from `matching_engine.py`. `anthropic_key` is
`os.getenv('ANTHROPIC_API_KEY')`; when it is missing the raised
`ValueError` is caught by the outer handler, which maps every job to the
`"Analysis failed"` degraded row. Otherwise each job in order is scored by
`analyze_job_match` starting at `retry_count = 0` (`oracles i` being the
API outcomes seen while scoring job `i`) and the results are sorted by
score, descending, stably. -/
def analyze_matches (anthropic_key : Option String)
    (oracles : Nat → Nat → ApiOutcome) (resume_text : String)
    (jobs : List Posting) : List ScoredPosting :=
  match anthropic_key with
  | none => jobs.map fun job => degradedResult job "Analysis failed"
  | some _ =>
    sortByScoreDesc
      (jobs.enum.map fun p => (analyze_job_match (oracles p.1) resume_text p.2 0).1)

/-! ## main.py : JobProcessor state -/

/-- The mutable fields of `JobProcessor` touched by `handle_analyzed_job`:
the list of all analyzed jobs, the analysis counter, and the published
top-5 buffer (`st.session_state.top_matches`). -/
structure JobProcessorState where
  analyzed_jobs : List ScoredPosting
  analysis_count : Nat
  top_matches : List ScoredPosting
deriving DecidableEq

/-- The initial processor state: no analyzed jobs, zero count, empty
buffer. -/
def initState : JobProcessorState :=
  { analyzed_jobs := [], analysis_count := 0, top_matches := [] }

/-- `JobProcessor.handle_analyzed_job` from `main.py`: append the new
scored posting, bump the counter, sort all analyzed jobs by score
descending (stable) and publish the first five as the top-matches
buffer. -/
def handle_analyzed_job (st : JobProcessorState)
    (job_with_match : ScoredPosting) : JobProcessorState :=
  let analyzed := st.analyzed_jobs ++ [job_with_match]
  { analyzed_jobs := analyzed
    analysis_count := st.analysis_count + 1
    top_matches := (sortByScoreDesc analyzed).take 5 }

/-! ## Concrete instances used in examples and counterexamples -/

/-- A fixed posting used by the concrete examples. -/
def job0 : Posting :=
  { title := "t", company := "c", location := "l", description := "d",
    posted_date := "p", url := none }

/-- A scored posting over `job0` with the given score and an identifying
reasoning tag, used to observe tie-breaking. -/
def taggedResult (s : Nat) (tag : String) : ScoredPosting :=
  { toPosting := job0, match_score := s, match_reasoning := tag }

/-- The arrival sequence with scores [40, 90, 90, 10, 60, 99] from the
spec's top-5 example, tagged a-f in arrival order. -/
def exampleArrivals : List ScoredPosting :=
  [taggedResult 40 "a", taggedResult 90 "b", taggedResult 90 "c",
   taggedResult 10 "d", taggedResult 60 "e", taggedResult 99 "f"]

/-- Concrete dates parameter for sample-job instances. -/
def dates0 : List String := ["d1", "d2", "d3", "d4", "d5"]

end JobMatcher

namespace JobMatcher

/-! ## Lemmas about the stable descending sort -/

theorem mem_insertByScoreDesc {y j : ScoredPosting} {l : List ScoredPosting} :
    y ∈ insertByScoreDesc j l ↔ y = j ∨ y ∈ l := by
  induction l with
  | nil => simp [insertByScoreDesc]
  | cons x xs ih =>
    by_cases h : x.match_score ≤ j.match_score
    · simp [insertByScoreDesc, h]
    · simp [insertByScoreDesc, h, ih]
      tauto

theorem insertByScoreDesc_perm (j : ScoredPosting) (l : List ScoredPosting) :
    List.Perm (insertByScoreDesc j l) (j :: l) := by
  induction l with
  | nil => simp [insertByScoreDesc]
  | cons x xs ih =>
    by_cases h : x.match_score ≤ j.match_score
    · simp [insertByScoreDesc, h]
    · simp only [insertByScoreDesc, h, if_neg, if_false]
      exact (List.Perm.cons x ih).trans (List.Perm.swap j x xs)

theorem sortByScoreDesc_perm (l : List ScoredPosting) :
    List.Perm (sortByScoreDesc l) l := by
  induction l with
  | nil => simp [sortByScoreDesc]
  | cons x xs ih =>
    exact ((insertByScoreDesc_perm x (sortByScoreDesc xs)).trans (List.Perm.cons x ih))

theorem pairwise_insertByScoreDesc {j : ScoredPosting} {l : List ScoredPosting}
    (hl : List.Pairwise (fun a b => b.match_score ≤ a.match_score) l) :
    List.Pairwise (fun a b => b.match_score ≤ a.match_score) (insertByScoreDesc j l) := by
  induction l with
  | nil => simp [insertByScoreDesc]
  | cons x xs ih =>
    rcases List.pairwise_cons.mp hl with ⟨hx, hxs⟩
    by_cases h : x.match_score ≤ j.match_score
    · simp only [insertByScoreDesc, h, if_true, if_pos]
      refine List.pairwise_cons.mpr ⟨?_, hl⟩
      intro y hy
      rcases List.mem_cons.mp hy with rfl | hy
      · exact h
      · exact le_trans (hx y hy) h
    · simp only [insertByScoreDesc, h, if_neg, if_false]
      refine List.pairwise_cons.mpr ⟨?_, ih hxs⟩
      intro y hy
      rcases mem_insertByScoreDesc.mp hy with rfl | hy
      · exact le_of_not_le h
      · exact hx y hy

theorem sortByScoreDesc_pairwise (l : List ScoredPosting) :
    List.Pairwise (fun a b => b.match_score ≤ a.match_score) (sortByScoreDesc l) := by
  induction l with
  | nil => simp [sortByScoreDesc]
  | cons x xs ih => exact pairwise_insertByScoreDesc ih

theorem filter_insertByScoreDesc (j : ScoredPosting) (l : List ScoredPosting) (s : Nat) :
    (insertByScoreDesc j l).filter (fun x => x.match_score == s) =
      if j.match_score = s then j :: l.filter (fun x => x.match_score == s)
      else l.filter (fun x => x.match_score == s) := by
  induction l with
  | nil =>
    by_cases hj : j.match_score = s <;> simp [insertByScoreDesc, List.filter_cons, hj]
  | cons x xs ih =>
    by_cases h : x.match_score ≤ j.match_score
    · have hstep : insertByScoreDesc j (x :: xs) = j :: x :: xs := by
        simp [insertByScoreDesc, h]
      by_cases hj : j.match_score = s <;>
        by_cases hx : x.match_score = s <;>
          simp [hstep, List.filter_cons, hj, hx]
    · have hstep : insertByScoreDesc j (x :: xs) = x :: insertByScoreDesc j xs := by
        simp [insertByScoreDesc, h]
      by_cases hj : j.match_score = s
      · have hx : ¬ x.match_score = s := by
          have hgt : j.match_score < x.match_score := lt_of_not_le h
          omega
        simp [hstep, List.filter_cons, hx, ih, hj]
      · by_cases hx : x.match_score = s <;> simp [hstep, List.filter_cons, hx, ih, hj]

theorem sortByScoreDesc_filter (l : List ScoredPosting) (s : Nat) :
    (sortByScoreDesc l).filter (fun x => x.match_score == s) =
      l.filter (fun x => x.match_score == s) := by
  induction l with
  | nil => simp [sortByScoreDesc]
  | cons x xs ih =>
    show (insertByScoreDesc x (sortByScoreDesc xs)).filter _ = _
    rw [filter_insertByScoreDesc]
    by_cases hx : x.match_score = s <;> simp [List.filter_cons, hx, ih]

theorem sortByScoreDesc_all_eq {l : List ScoredPosting} {c : Nat}
    (h : ∀ x ∈ l, x.match_score = c) : sortByScoreDesc l = l := by
  induction l with
  | nil => rfl
  | cons x xs ih =>
    have hx : x.match_score = c := h x (List.mem_cons_self x xs)
    have hxs : ∀ y ∈ xs, y.match_score = c := fun y hy => h y (List.mem_cons_of_mem x hy)
    show insertByScoreDesc x (sortByScoreDesc xs) = x :: xs
    rw [ih hxs]
    cases xs with
    | nil => rfl
    | cons y ys =>
      have hy : y.match_score = c := hxs y (List.mem_cons_self y ys)
      simp [insertByScoreDesc, hx, hy]

theorem pairwise_take_drop {l : List ScoredPosting} {n : Nat}
    (h : List.Pairwise (fun a b => b.match_score ≤ a.match_score) l) :
    ∀ x ∈ l.take n, ∀ y ∈ l.drop n, y.match_score ≤ x.match_score := by
  have hsplit : l.take n ++ l.drop n = l := List.take_append_drop n l
  rw [← hsplit] at h
  exact (List.pairwise_append.mp h).2.2

end JobMatcher

namespace JobMatcher

/-! ## Lemmas about analyze_job_match -/

theorem analyze_job_match_toPosting (oracle : Nat → ApiOutcome) (resume_text : String)
    (job : Posting) (retry_count : Nat) :
    (analyze_job_match oracle resume_text job retry_count).1.toPosting = job := by
  refine analyze_job_match.induct oracle resume_text job
    (motive := fun rc => (analyze_job_match oracle resume_text job rc).1.toPosting = job)
    ?_ ?_ ?_ ?_ ?_ retry_count
  · intro rc resp h scored hp
    rw [analyze_job_match.eq_def, h]
    simp [hp]
  · intro rc resp h hp
    rw [analyze_job_match.eq_def, h]
    simp [hp, degradedResult]
  · intro rc h hlt ih
    rw [analyze_job_match.eq_def, h]
    simp only [hlt, dif_pos]
    exact ih
  · intro rc h hlt
    rw [analyze_job_match.eq_def, h]
    simp [hlt, degradedResult]
  · intro rc msg h
    rw [analyze_job_match.eq_def, h]
    simp [degradedResult]

theorem analyze_job_match_waits_length (oracle : Nat → ApiOutcome) (resume_text : String)
    (job : Posting) (retry_count : Nat) :
    (analyze_job_match oracle resume_text job retry_count).2.length ≤ max_retries - retry_count := by
  refine analyze_job_match.induct oracle resume_text job
    (motive := fun rc => (analyze_job_match oracle resume_text job rc).2.length ≤ max_retries - rc)
    ?_ ?_ ?_ ?_ ?_ retry_count
  · intro rc resp h scored hp
    rw [analyze_job_match.eq_def, h]
    simp [hp]
  · intro rc resp h hp
    rw [analyze_job_match.eq_def, h]
    simp [hp]
  · intro rc h hlt ih
    rw [analyze_job_match.eq_def, h]
    simp only [hlt, dif_pos, List.length_cons]
    omega
  · intro rc h hlt
    rw [analyze_job_match.eq_def, h]
    simp [hlt]
  · intro rc msg h
    rw [analyze_job_match.eq_def, h]
    simp

theorem analyze_job_match_first_wait (oracle : Nat → ApiOutcome) (resume_text : String)
    (job : Posting) (retry_count w : Nat) (rest : List Nat)
    (hw : (analyze_job_match oracle resume_text job retry_count).2 = w :: rest) :
    w = retry_count + 1 := by
  rw [analyze_job_match.eq_def] at hw
  cases h : oracle retry_count <;> rw [h] at hw
  case success resp =>
    cases hp : parse_score_response resp.data <;> simp [hp] at hw
  case rateLimit =>
    by_cases hlt : retry_count < max_retries
    · simp only [hlt, dif_pos] at hw
      exact (List.cons.injEq _ _ _ _ ▸ hw).1.symm
    · simp [hlt] at hw
  case exn msg => simp at hw

theorem analyze_job_match_exn (oracle : Nat → ApiOutcome) (resume_text : String)
    (job : Posting) (retry_count : Nat) (msg : String)
    (h : oracle retry_count = .exn msg) :
    analyze_job_match oracle resume_text job retry_count =
      (degradedResult job ("Error during analysis: " ++ msg), []) := by
  rw [analyze_job_match.eq_def, h]

theorem analyze_job_match_parse_fail (oracle : Nat → ApiOutcome) (resume_text : String)
    (job : Posting) (retry_count : Nat) (resp : String)
    (h : oracle retry_count = .success resp)
    (hp : parse_score_response resp.data = none) :
    analyze_job_match oracle resume_text job retry_count =
      (degradedResult job "Error parsing analysis results", []) := by
  rw [analyze_job_match.eq_def, h]
  simp [hp]

theorem analyze_job_match_all_rateLimit (oracle : Nat → ApiOutcome)
    (h : ∀ i, oracle i = .rateLimit) (resume_text : String) (job : Posting) :
    analyze_job_match oracle resume_text job 0 =
      (degradedResult job "Error during analysis: Rate limit exceeded after 5 retries",
        [1, 2, 3, 4, 5]) := by
  simp [analyze_job_match, h, max_retries]
  rfl

theorem enumFrom_map_toPosting (f : Nat → Posting → ScoredPosting)
    (hf : ∀ i j, (f i j).toPosting = j) (n : Nat) (jobs : List Posting) :
    ((List.enumFrom n jobs).map (fun p => f p.1 p.2)).map ScoredPosting.toPosting = jobs := by
  induction jobs generalizing n with
  | nil => rfl
  | cons x xs ih => simp [List.enumFrom, hf, ih]

end JobMatcher

namespace JobMatcher

/-! ## Claim theorems -/

/-- C5: after every call to `handle_analyzed_job`, the published top-5
buffer is the 5-prefix of the stable descending sort of all analyzed scored
postings: each buffer element was produced, the buffer is in descending
score order, every element dropped from the buffer scores no higher than
any buffer element, ties keep arrival order (the sort preserves the
relative order of equal scores), and the spec's arrival sequence
[40,90,90,10,60,99] yields the buffer 99,90,90,60,40 with the two 90s in
arrival order. -/
theorem c5_top5_buffer_invariant (st : JobProcessorState) (job_with_match : ScoredPosting) :
    ((handle_analyzed_job st job_with_match).top_matches =
        (sortByScoreDesc (handle_analyzed_job st job_with_match).analyzed_jobs).take 5) ∧
    (∀ x ∈ (handle_analyzed_job st job_with_match).top_matches,
        x ∈ (handle_analyzed_job st job_with_match).analyzed_jobs) ∧
    List.Pairwise (fun a b => b.match_score ≤ a.match_score)
      (handle_analyzed_job st job_with_match).top_matches ∧
    (∀ x ∈ (handle_analyzed_job st job_with_match).top_matches,
      ∀ y ∈ (sortByScoreDesc (handle_analyzed_job st job_with_match).analyzed_jobs).drop 5,
        y.match_score ≤ x.match_score) ∧
    (∀ s : Nat,
      (sortByScoreDesc (handle_analyzed_job st job_with_match).analyzed_jobs).filter
          (fun x => x.match_score == s) =
        (handle_analyzed_job st job_with_match).analyzed_jobs.filter
          (fun x => x.match_score == s)) ∧
    (List.foldl handle_analyzed_job initState exampleArrivals).top_matches =
      [taggedResult 99 "f", taggedResult 90 "b", taggedResult 90 "c",
       taggedResult 60 "e", taggedResult 40 "a"] := by
  refine ⟨rfl, ?_, ?_, ?_, ?_, by decide⟩
  · intro x hx
    exact (sortByScoreDesc_perm _).mem_iff.mp (List.mem_of_mem_take hx)
  · exact List.Pairwise.sublist (List.take_sublist 5 _) (sortByScoreDesc_pairwise _)
  · exact fun x hx y hy => pairwise_take_drop (sortByScoreDesc_pairwise _) x hx y hy
  · exact fun s => sortByScoreDesc_filter _ s

theorem c5_top5_buffer_invariant_witness :
    (handle_analyzed_job initState (taggedResult 40 "a")).top_matches =
      (sortByScoreDesc (handle_analyzed_job initState (taggedResult 40 "a")).analyzed_jobs).take 5 ∧
    taggedResult 40 "a" ∈ (handle_analyzed_job initState (taggedResult 40 "a")).analyzed_jobs :=
  ⟨(c5_top5_buffer_invariant initState (taggedResult 40 "a")).1,
   (c5_top5_buffer_invariant initState (taggedResult 40 "a")).2.1 (taggedResult 40 "a") (by decide)⟩

/-- C6: if some entry of the excluded set (a lowercase filter entry, as
built by `parse_company_list`) occurs as a substring of the lowercased
company name, `should_include_company` rejects the company, whatever the
included set is. -/
theorem c6_exclusion_priority (company : String)
    (included_companies excluded_companies : List String) (s : String)
    (hmem : s ∈ excluded_companies) (hlow : pyLower s.data = s.data)
    (hsub : strIn s.data (pyLower company.data) = true) :
    should_include_company company included_companies excluded_companies = false := by
  have hany : excluded_companies.any
      (fun excluded => strIn excluded.data (pyLower company.data)) = true :=
    List.any_eq_true.mpr ⟨s, hmem, hsub⟩
  simp [should_include_company, hany]

theorem c6_exclusion_priority_witness :
    should_include_company "Acme Corp" ["acme corp"] ["acme"] = false :=
  c6_exclusion_priority "Acme Corp" ["acme corp"] ["acme"] "acme"
    (by decide) (by decide) (by decide)

/-- C7: with both filter sets empty, every company is accepted. -/
theorem c7_empty_filters_accept (company : String) :
    should_include_company company [] [] = true := rfl

/-- C10: the rate-limit retry recursion of `analyze_job_match` is total and
bounded: for every oracle of API outcomes the number of retries performed
(the recorded backoff waits) is at most `max_retries - retry_count`, and in
particular a call starting at `retry_count = 0` retries at most 5 times. -/
theorem c10_retry_termination (oracle : Nat → ApiOutcome) (resume_text : String)
    (job : Posting) (retry_count : Nat) :
    (analyze_job_match oracle resume_text job retry_count).2.length ≤ max_retries - retry_count ∧
    (analyze_job_match oracle resume_text job 0).2.length ≤ 5 := by
  refine ⟨analyze_job_match_waits_length oracle resume_text job retry_count, ?_⟩
  have h := analyze_job_match_waits_length oracle resume_text job 0
  simpa [max_retries] using h

/-- C2 counterexample: two scoring failures (a non-rate-limit exception
with message "boom", and an unparseable response "oops") both degrade to
match_score 0 but produce different reasoning strings, so there is no
single fixed error reasoning string as the claim states. -/
theorem c2_counterexample :
    (analyze_job_match (fun _ => ApiOutcome.exn "boom") "" job0 0).1.match_score = 0 ∧
    (analyze_job_match (fun _ => ApiOutcome.success "oops") "" job0 0).1.match_score = 0 ∧
    ¬ ((analyze_job_match (fun _ => ApiOutcome.exn "boom") "" job0 0).1.match_reasoning =
        (analyze_job_match (fun _ => ApiOutcome.success "oops") "" job0 0).1.match_reasoning) := by
  have h1 := analyze_job_match_exn (fun _ => ApiOutcome.exn "boom") "" job0 0 "boom" rfl
  have h2 := analyze_job_match_parse_fail (fun _ => ApiOutcome.success "oops") "" job0 0 "oops"
    rfl (by decide)
  rw [h1, h2]
  exact ⟨rfl, rfl, by decide⟩

/-- C2 amended: every scoring failure degrades to match_score 0 without
raising and without aborting the batch, but the reasoning string is not one
fixed string: it is "Error parsing analysis results" for parse rejections
and "Error during analysis: " followed by the exception message otherwise
(in particular "Error during analysis: Rate limit exceeded after 5 retries"
when the rate-limit retries are exhausted); `analyze_matches` always
returns one row per input. -/
theorem c2_failure_degradation (oracle : Nat → ApiOutcome) (resume_text : String)
    (job : Posting) (retry_count : Nat) :
    (∀ msg, oracle retry_count = ApiOutcome.exn msg →
      (analyze_job_match oracle resume_text job retry_count).1.match_score = 0 ∧
      (analyze_job_match oracle resume_text job retry_count).1.match_reasoning =
        "Error during analysis: " ++ msg) ∧
    (∀ resp, oracle retry_count = ApiOutcome.success resp →
      parse_score_response resp.data = none →
      (analyze_job_match oracle resume_text job retry_count).1.match_score = 0 ∧
      (analyze_job_match oracle resume_text job retry_count).1.match_reasoning =
        "Error parsing analysis results") ∧
    ((∀ i, oracle i = ApiOutcome.rateLimit) →
      (analyze_job_match oracle resume_text job 0).1.match_score = 0 ∧
      (analyze_job_match oracle resume_text job 0).1.match_reasoning =
        "Error during analysis: Rate limit exceeded after 5 retries") ∧
    (∀ (anthropic_key : Option String) (oracles : Nat → Nat → ApiOutcome)
        (jobs : List Posting),
      (analyze_matches anthropic_key oracles resume_text jobs).length = jobs.length) := by
  refine ⟨?_, ?_, ?_, ?_⟩
  · intro msg h
    rw [analyze_job_match_exn oracle resume_text job retry_count msg h]
    exact ⟨rfl, rfl⟩
  · intro resp h hp
    rw [analyze_job_match_parse_fail oracle resume_text job retry_count resp h hp]
    exact ⟨rfl, rfl⟩
  · intro h
    rw [analyze_job_match_all_rateLimit oracle h resume_text job]
    exact ⟨rfl, rfl⟩
  · intro anthropic_key oracles jobs
    cases anthropic_key with
    | none => simp [analyze_matches]
    | some k =>
      show (sortByScoreDesc _).length = _
      rw [(sortByScoreDesc_perm _).length_eq]
      simp [List.enum_length]

theorem c2_failure_degradation_witness :
    (analyze_job_match (fun _ => ApiOutcome.exn "x") "" job0 0).1.match_score = 0 ∧
    (analyze_matches none (fun _ _ => ApiOutcome.rateLimit) "" [job0]).length = 1 :=
  ⟨((c2_failure_degradation (fun _ => ApiOutcome.exn "x") "" job0 0).1 "x" rfl).1,
   (c2_failure_degradation (fun _ => ApiOutcome.exn "x") "" job0 0).2.2.2
     none (fun _ _ => ApiOutcome.rateLimit) [job0]⟩

/-- C3 counterexample: with every call rate-limited, the first recorded
wait of `analyze_job_match` starting at retry_count 0 is
`wait_with_backoff 1` — not retry_count 0 as the claim's last sentence
states — so its pre-jitter delay is 40 seconds, not 20. -/
theorem c3_counterexample :
    ((analyze_job_match (fun _ => ApiOutcome.rateLimit) "" job0 0).2).head? = some 1 ∧
    ¬ ((analyze_job_match (fun _ => ApiOutcome.rateLimit) "" job0 0).2).head? = some 0 ∧
    backoff_delay 1 = 40 ∧ ¬ backoff_delay 1 = 20 := by
  rw [analyze_job_match_all_rateLimit (fun _ => ApiOutcome.rateLimit) (fun _ => rfl) "" job0]
  refine ⟨rfl, by decide, by decide, by decide⟩

/-- C3 amended: the backoff delay is min(20 × 2^retry_count, 120) seconds
times a jitter factor in [0.5, 1.5]; for retry_count 0 it lies in [10, 30],
and for retry_count ≥ 3 the pre-jitter delay is capped at 120 (delay in
[60, 180] after jitter); but the delay actually waited before the first
retry of a rate-limited call corresponds to retry_count = 1 (the code
increments retry_count before waiting), not retry_count = 0. -/
theorem c3_backoff_amended (jitter : ℚ) (h1 : 1/2 ≤ jitter) (h2 : jitter ≤ 3/2)
    (retry_count : Nat) :
    wait_with_backoff retry_count jitter =
      ((min (base_delay * 2 ^ retry_count) max_delay : Nat) : ℚ) * jitter ∧
    (retry_count = 0 →
      10 ≤ wait_with_backoff retry_count jitter ∧ wait_with_backoff retry_count jitter ≤ 30) ∧
    (3 ≤ retry_count → backoff_delay retry_count = 120 ∧
      60 ≤ wait_with_backoff retry_count jitter ∧ wait_with_backoff retry_count jitter ≤ 180) ∧
    (∀ (oracle : Nat → ApiOutcome) (resume_text : String) (job : Posting)
        (w : Nat) (rest : List Nat),
      (analyze_job_match oracle resume_text job 0).2 = w :: rest → w = 1) := by
  refine ⟨rfl, ?_, ?_, ?_⟩
  · rintro rfl
    have h : wait_with_backoff 0 jitter = 20 * jitter := by
      norm_num [wait_with_backoff, backoff_delay, base_delay, max_delay]
    rw [h]
    constructor <;> linarith
  · intro h3
    have hpow : 2 ^ 3 ≤ 2 ^ retry_count := Nat.pow_le_pow_right (by norm_num) h3
    have hcap : backoff_delay retry_count = 120 := by
      have : 120 ≤ base_delay * 2 ^ retry_count := by
        simp only [base_delay]
        omega
      simp [backoff_delay, max_delay, Nat.min_eq_right this]
    refine ⟨hcap, ?_, ?_⟩ <;>
      · have h : wait_with_backoff retry_count jitter = 120 * jitter := by
          rw [wait_with_backoff, hcap]
          norm_num
        rw [h]
        linarith
  · intro oracle resume_text job w rest hw
    have := analyze_job_match_first_wait oracle resume_text job 0 w rest hw
    omega

theorem c3_backoff_amended_witness :
    (10 ≤ wait_with_backoff 0 1 ∧ wait_with_backoff 0 1 ≤ 30) ∧ backoff_delay 3 = 120 :=
  ⟨(c3_backoff_amended 1 (by norm_num) (by norm_num) 0).2.1 rfl,
   ((c3_backoff_amended 1 (by norm_num) (by norm_num) 3).2.2.1 (by norm_num)).1⟩

/-- C4 counterexample: with zero accepted postings and a catastrophic
throw, the streaming consumer sees the 5 samples twice — the except
handler yields them and the post-loop zero-accepted check yields them
again — so the output is 10 postings, not the claimed fixed set of 5; and
with one accepted posting and a throw the consumer sees that posting plus
the 5 samples, 6 postings, again not the 5-sample set. -/
theorem c4_counterexample :
    (scrape_stream_output [] true (get_sample_jobs "Engineer" "NY" dates0)).length = 10 ∧
    ¬ (scrape_stream_output [] true (get_sample_jobs "Engineer" "NY" dates0)).length = 5 ∧
    (scrape_stream_output [job0] true (get_sample_jobs "Engineer" "NY" dates0)).length = 6 := by
  refine ⟨by decide, by decide, by decide⟩

/-- C4 amended: in streaming mode, a normal end with zero accepted
postings yields exactly the 5 synthetic sample postings, whose titles are
the five distinct variants "Senior/Lead/Principal/Staff <role>" and
"<role> Manager"; a catastrophic throw instead appends the 5 samples to
the already-yielded postings and, when zero postings were accepted, the
post-loop check yields them a second time (10 sample postings); in every
throw or zero-accepted case the consumer still sees at least 5 postings,
hence at least one result. -/
theorem c4_sample_fallback_amended (role location : String) (dates : List String)
    (accepted : List Posting) (crashed : Bool) :
    (accepted = [] → crashed = false →
      scrape_stream_output accepted crashed (get_sample_jobs role location dates) =
        get_sample_jobs role location dates) ∧
    (accepted = [] → crashed = true →
      scrape_stream_output accepted crashed (get_sample_jobs role location dates) =
        get_sample_jobs role location dates ++ get_sample_jobs role location dates) ∧
    (crashed = true → accepted ≠ [] →
      scrape_stream_output accepted crashed (get_sample_jobs role location dates) =
        accepted ++ get_sample_jobs role location dates) ∧
    ((crashed = true ∨ accepted = []) →
      5 ≤ (scrape_stream_output accepted crashed (get_sample_jobs role location dates)).length) ∧
    (get_sample_jobs role location dates).length = 5 ∧
    (get_sample_jobs role location dates).map Posting.title = job_titles role ∧
    job_titles role = ["Senior " ++ role, "Lead " ++ role, "Principal " ++ role,
      "Staff " ++ role, role ++ " Manager"] ∧
    (job_titles role).Nodup := by
  have hlen : (get_sample_jobs role location dates).length = 5 := by
    simp [get_sample_jobs]
  have l1 : ("Senior ").length = 7 := rfl
  have l2 : ("Lead ").length = 5 := rfl
  have l3 : ("Principal ").length = 10 := rfl
  have l4 : ("Staff ").length = 6 := rfl
  have l5 : (" Manager").length = 8 := rfl
  refine ⟨?_, ?_, ?_, ?_, hlen, rfl, rfl, ?_⟩
  · rintro rfl rfl
    simp [scrape_stream_output]
  · rintro rfl rfl
    simp [scrape_stream_output]
  · rintro rfl hne
    have he : accepted.isEmpty = false := by
      cases h : accepted.isEmpty
      · rfl
      · exact absurd (List.isEmpty_iff.mp h) hne
    simp [scrape_stream_output, he]
  · intro h
    rcases h with hc | ha
    · subst hc
      cases he : accepted.isEmpty <;>
        simp [scrape_stream_output, he, hlen]
    · subst ha
      cases crashed <;> simp [scrape_stream_output, hlen]
  · have hmap : (job_titles role).map String.length =
        [7 + role.length, 5 + role.length, 10 + role.length,
         6 + role.length, role.length + 8] := by
      simp only [job_titles, List.map_cons, List.map_nil, String.length_append,
        l1, l2, l3, l4, l5]
    apply List.Nodup.of_map String.length
    rw [hmap]
    simp only [List.nodup_cons, List.mem_cons, List.mem_singleton,
      List.not_mem_nil, or_false, not_or, List.nodup_nil, and_true]
    refine ⟨?_, ?_, ?_, ?_, fun h => h⟩ <;> omega

theorem c4_sample_fallback_amended_witness :
    scrape_stream_output [] false (get_sample_jobs "Engineer" "NY" dates0) =
      get_sample_jobs "Engineer" "NY" dates0 ∧
    scrape_stream_output [] true (get_sample_jobs "Engineer" "NY" dates0) =
      get_sample_jobs "Engineer" "NY" dates0 ++ get_sample_jobs "Engineer" "NY" dates0 ∧
    scrape_stream_output [job0] true (get_sample_jobs "Engineer" "NY" dates0) =
      [job0] ++ get_sample_jobs "Engineer" "NY" dates0 ∧
    5 ≤ (scrape_stream_output [] false (get_sample_jobs "Engineer" "NY" dates0)).length :=
  ⟨(c4_sample_fallback_amended "Engineer" "NY" dates0 [] false).1 rfl rfl,
   (c4_sample_fallback_amended "Engineer" "NY" dates0 [] true).2.1 rfl rfl,
   (c4_sample_fallback_amended "Engineer" "NY" dates0 [job0] true).2.2.1 rfl
     (by simp),
   (c4_sample_fallback_amended "Engineer" "NY" dates0 [] false).2.2.2.1 (Or.inr rfl)⟩

theorem contains_append_cons (sep : Char) (l r : List Char) :
    (l ++ sep :: r).contains sep = true := by
  induction l with
  | nil => simp [List.contains_cons]
  | cons c cs ih => rw [List.cons_append, List.contains_cons, ih]; simp

theorem splitFirst_append (sep : Char) (l r : List Char) (hl : sep ∉ l) :
    splitFirst sep (l ++ sep :: r) = (l, r) := by
  induction l with
  | nil => simp [splitFirst]
  | cons c cs ih =>
    have hc : ¬ c = sep := fun h => hl (by simp [h])
    have hrec := ih fun h => hl (List.mem_cons_of_mem c h)
    simp [splitFirst, hc, hrec]

theorem splitFirst_decomp (sep : Char) (s : List Char) (h : s.contains sep = true) :
    s = (splitFirst sep s).1 ++ sep :: (splitFirst sep s).2 ∧
      sep ∉ (splitFirst sep s).1 := by
  induction s with
  | nil => simp at h
  | cons c cs ih =>
    by_cases hc : c = sep
    · subst hc
      simp [splitFirst]
    · have hbeq : (sep == c) = false := by
        simp only [beq_eq_false_iff_ne, ne_eq]
        exact fun hx => hc hx.symm
      have h' : cs.contains sep = true := by
        rw [List.contains_cons, hbeq] at h
        simpa using h
      obtain ⟨h1, h2⟩ := ih h'
      have hstep : splitFirst sep (c :: cs) =
          (c :: (splitFirst sep cs).1, (splitFirst sep cs).2) := by
        simp [splitFirst, hc]
      rw [hstep]
      refine ⟨?_, ?_⟩
      · conv_lhs => rw [h1]
        rfl
      · simp only [List.mem_cons, not_or]
        exact ⟨fun hx => hc hx.symm, h2⟩

/-- C1: characterization of the score-response parser, plus the spec's four
examples: parsing succeeds with score `sc` and reasoning `mr` exactly when
the response splits at its first pipe into `l` and `r`, the digits kept
from `l` are non-empty and read as an integer at most 100 giving `sc`, and
the trimmed `r` is non-empty and equals `mr`. -/
theorem c1_score_parsing (s : List Char) (sc : Nat) (mr : List Char) :
    (parse_score_response s = some (sc, mr) ↔
      ∃ l r, s = l ++ '|' :: r ∧ '|' ∉ l ∧
        l.filter Char.isDigit ≠ [] ∧
        sc = digitsToNat (l.filter Char.isDigit) ∧ sc ≤ 100 ∧
        mr = pyStrip r ∧ mr ≠ []) ∧
    parse_score_response ("85|Strong fit, leadership").data =
      some (85, ("Strong fit, leadership").data) ∧
    parse_score_response ("abc|reason").data = none ∧
    parse_score_response ("150|reason").data = none ∧
    parse_score_response ("70|").data = none := by
  refine ⟨⟨?_, ?_⟩, by decide, by decide, by decide, by decide⟩
  · intro h
    by_cases hc : s.contains '|' = true
    · obtain ⟨hdec, hnotin⟩ := splitFirst_decomp '|' s hc
      unfold parse_score_response at h
      rw [hc] at h
      rw [if_neg (by decide : ¬ (true = false))] at h
      split_ifs at h with g1 g2 g3
      injection h with h'
      rw [Prod.mk.injEq] at h'
      obtain ⟨hsc, hmr⟩ := h'
      refine ⟨(splitFirst '|' s).1, (splitFirst '|' s).2, hdec, hnotin,
        ?_, hsc.symm, ?_, hmr.symm, ?_⟩
      · intro hnil
        exact g1 (by rw [hnil]; rfl)
      · omega
      · intro hnil
        rw [← hmr] at hnil
        exact g3 (by rw [hnil]; rfl)
    · have hcf : s.contains '|' = false := by
        cases hx : s.contains '|'
        · rfl
        · exact absurd hx hc
      unfold parse_score_response at h
      rw [hcf] at h
      rw [if_pos rfl] at h
      exact Option.noConfusion h
  · rintro ⟨l, r, rfl, hl, hd, hsc, h100, hmr, hne⟩
    have hc := contains_append_cons '|' l r
    have hsp := splitFirst_append '|' l r hl
    unfold parse_score_response
    rw [hc, if_neg (by decide : ¬ (true = false)), hsp]
    dsimp only
    rw [if_neg (fun g => hd (List.isEmpty_iff.mp g))]
    rw [if_neg (?_ : ¬ (digitsToNat (List.filter Char.isDigit l) < 0 ∨
      100 < digitsToNat (List.filter Char.isDigit l)))]
    rw [if_neg (?_ : ¬ ((pyStrip r).isEmpty = true))]
    · rw [← hsc, ← hmr]
    · exact fun g => hne (hmr.trans (List.isEmpty_iff.mp g))
    · intro g
      rcases g with g | g
      · omega
      · omega

/-- C8: `analyze_matches` returns exactly one scored posting per input
posting — the underlying scored list extends the inputs pointwise (mapping
each output back to its posting recovers the input list) — and the returned
list is the stable descending sort of that scored list: same length as the
input, sorted by match_score descending, a permutation of the per-input
results, with equal scores kept in input order. -/
theorem c8_analyze_matches_contract (anthropic_key : Option String)
    (oracles : Nat → Nat → ApiOutcome) (resume_text : String) (jobs : List Posting) :
    ∃ scored : List ScoredPosting,
      scored.map ScoredPosting.toPosting = jobs ∧
      analyze_matches anthropic_key oracles resume_text jobs = sortByScoreDesc scored ∧
      (analyze_matches anthropic_key oracles resume_text jobs).length = jobs.length ∧
      List.Pairwise (fun a b => b.match_score ≤ a.match_score)
        (analyze_matches anthropic_key oracles resume_text jobs) ∧
      List.Perm (analyze_matches anthropic_key oracles resume_text jobs) scored ∧
      ∀ s : Nat,
        (analyze_matches anthropic_key oracles resume_text jobs).filter
            (fun x => x.match_score == s) =
          scored.filter (fun x => x.match_score == s) := by
  cases anthropic_key with
  | none =>
    refine ⟨jobs.map (fun job => degradedResult job "Analysis failed"), ?_, ?_, ?_, ?_, ?_, ?_⟩
    all_goals
      have hzero : ∀ x ∈ jobs.map (fun job => degradedResult job "Analysis failed"),
          x.match_score = 0 := by
        intro x hx
        rcases List.mem_map.mp hx with ⟨j, _, rfl⟩
        rfl
      have hid : sortByScoreDesc (jobs.map (fun job => degradedResult job "Analysis failed")) =
          jobs.map (fun job => degradedResult job "Analysis failed") :=
        sortByScoreDesc_all_eq hzero
      have hout : analyze_matches none oracles resume_text jobs =
          jobs.map (fun job => degradedResult job "Analysis failed") := rfl
    · rw [List.map_map]
      exact List.map_id'' (fun j => rfl) jobs
    · rw [hout, hid]
    · rw [hout, List.length_map]
    · rw [hout, ← hid]
      exact sortByScoreDesc_pairwise _
    · rw [hout]
    · intro s
      rw [hout]
  | some k =>
    refine ⟨jobs.enum.map fun p => (analyze_job_match (oracles p.1) resume_text p.2 0).1,
      ?_, ?_, ?_, ?_, ?_, ?_⟩
    · exact enumFrom_map_toPosting
        (fun i j => (analyze_job_match (oracles i) resume_text j 0).1)
        (fun i j => analyze_job_match_toPosting (oracles i) resume_text j 0) 0 jobs
    · rfl
    · show (sortByScoreDesc _).length = _
      rw [(sortByScoreDesc_perm _).length_eq]
      simp [List.enum_length]
    · exact sortByScoreDesc_pairwise _
    · exact sortByScoreDesc_perm _
    · exact fun s => sortByScoreDesc_filter _ s

/-- C9: `get_job_description` never raises: it returns either the stripped
text of the first matching content selector, the stripped text of a
keyword-phrase fallback match, or the fixed sentinel; in particular any
transport or parse failure (a failed fetch) yields the sentinel. -/
theorem c9_description_sentinel (page : Option PageModel) :
    (page = none → get_job_description page = "Detailed description not available") ∧
    (get_job_description page = "Detailed description not available" ∨
      ∃ p t, page = some p ∧
        get_job_description page = String.mk (pyStrip t.data) ∧
        ((∃ sel ∈ description_selectors, p.selectText sel = some t) ∨
          (∃ kw ∈ description_keywords, p.keywordText kw = some t))) := by
  constructor
  · rintro rfl
    rfl
  · cases page with
    | none => exact Or.inl rfl
    | some p =>
      cases hs : description_selectors.findSome? p.selectText with
      | some t =>
        refine Or.inr ⟨p, t, rfl, ?_, Or.inl (List.exists_of_findSome?_eq_some hs)⟩
        simp [get_job_description, hs]
      | none =>
        cases hk : description_keywords.findSome? p.keywordText with
        | some t =>
          refine Or.inr ⟨p, t, rfl, ?_, Or.inr (List.exists_of_findSome?_eq_some hk)⟩
          simp [get_job_description, hs, hk]
        | none =>
          left
          simp [get_job_description, hs, hk]

theorem c9_description_sentinel_witness :
    get_job_description none = "Detailed description not available" :=
  (c9_description_sentinel none).1 rfl

end JobMatcher
